import Mathlib

/-!
Shallow embedding of the `roinstxs` payment-transaction system.

Source files embedded:
* `src/engine.rs` — the record parser (`TxType`, `Tx::from_str`), the account
  data model, and the `TxEngine` state machine (`process_tx`,
  `process_deposit_and_withdrawal`, `process_dispute`, `process_resolve`,
  `process_chargeback`);
* `src/main.rs` — the one-shot file-batch driver (`reader_loop`);
* `src/csv_stream.rs` — the per-connection network driver (`handle_connection`).

Modelling conventions:
* Rust `HashMap` tables are modelled as functions `Nat → Option _` with
  pointwise insertion (`mapInsert`); `u16`/`u32` identifiers are `Nat`, with
  the parser enforcing the numeric bounds exactly as `str::parse::<u16>` and
  `str::parse::<u32>` do (optional leading `+`, decimal digits, range check).
* Rust `f64` amounts are modelled as exact rationals (`Rat`).  The spec states
  its balance invariants in exact arithmetic ("no floating drift beyond the
  chosen decimal precision") and every amount appearing in the claims is a
  plain decimal literal, so `Rat` is the faithful idealisation.  `parseDecimal`
  models the plain-decimal fragment of Rust's float grammar (optional sign,
  digits, optional fractional part); the code's `unwrap_or(0.)` fallback for a
  fourth field that fails numeric parsing is reproduced verbatim in
  `Tx.from_str`.
* A Rust process abort (`unreachable!`, a failed `.unwrap()`) is modelled by a
  dedicated outcome: `process_tx` returns `Option TxEngine` where `none` marks
  the abort, the batch driver returns `BatchOutcome.panicked`, and the network
  connection driver returns `ConnOutcome.died` (tokio confines the abort to
  the spawned connection task, so the listener process itself survives).
-/

set_option maxRecDepth 40000

namespace Roinstxs

/-- `TxType` from `src/engine.rs`: the transaction kind, including the `Noop`
placeholder used as `Default`. -/
inductive TxType where
  | deposit
  | withdrawal
  | dispute
  | resolve
  | chargeback
  | noop
deriving DecidableEq

/-- The keyword match of `impl From<&str> for TxType` in `src/engine.rs`.
`none` corresponds to the wildcard arm, which the Rust code makes a process
abort via `unreachable!("invalid Tx type")`. -/
def TxType.ofKeyword (s : String) : Option TxType :=
  match s with
  | "deposit" => some TxType.deposit
  | "withdrawal" => some TxType.withdrawal
  | "dispute" => some TxType.dispute
  | "resolve" => some TxType.resolve
  | "chargeback" => some TxType.chargeback
  | _ => none

/-- `Tx` from `src/engine.rs`: one parsed transaction record (field order as in
the Rust struct: `tx_type`, `tx_id`, `client`, `amount`). -/
structure Tx where
  tx_type : TxType
  tx_id : Nat
  client : Nat
  amount : Option Rat
deriving DecidableEq

/-- Is a character one of the two field separators accepted by
`v.splitn(4, &[',', ';'])`? -/
def isSep (c : Char) : Bool := c = ',' || c = ';'

/-- Split a character list at its first separator, returning the chunk before
and the remainder after the separator. -/
def splitFirstSep : List Char → Option (List Char × List Char)
  | [] => none
  | c :: rest =>
    if isSep c then some ([], rest)
    else
      match splitFirstSep rest with
      | some (pre, post) => some (c :: pre, post)
      | none => none

/-- Rust's `str::splitn(n, ...)`: at most `n` chunks, the last chunk being the
untouched remainder of the string (separators included). -/
def splitn : Nat → List Char → List (List Char)
  | 0, _ => []
  | 1, cs => [cs]
  | n + 2, cs =>
    match splitFirstSep cs with
    | none => [cs]
    | some (pre, post) => pre :: splitn (n + 1) post

/-- Rust's `str::trim` on a character list: drop leading and trailing
whitespace. -/
def trimChars (cs : List Char) : List Char :=
  ((cs.dropWhile Char.isWhitespace).reverse.dropWhile Char.isWhitespace).reverse

/-- Value of a run of decimal digits (used only on all-digit chunks). -/
def natOfDigits (cs : List Char) : Nat :=
  cs.foldl (fun acc c => acc * 10 + (c.toNat - 48)) 0

/-- Rust's `str::parse::<uN>`: optional leading `+`, one or more decimal
digits, and a range check (`bound` is `2^16` for `u16`, `2^32` for `u32`).
Anything else — empty digits, a sign alone, a minus sign, overflow — is a
parse error (`none`). -/
def parseUnsigned (bound : Nat) (cs : List Char) : Option Nat :=
  let body := match cs with
    | '+' :: rest => rest
    | _ => cs
  if !body.isEmpty && body.all Char.isDigit then
    let n := natOfDigits body
    if n < bound then some n else none
  else none

/-- Split a character list at its first `'.'`. -/
def splitFirstDot : List Char → Option (List Char × List Char)
  | [] => none
  | c :: rest =>
    if c = '.' then some ([], rest)
    else
      match splitFirstDot rest with
      | some (pre, post) => some (c :: pre, post)
      | none => none

/-- The plain-decimal fragment of Rust's `str::parse::<f64>` grammar, with the
value taken exactly: optional sign, integer digits, optional `'.'` and
fraction digits (at least one digit overall).  Chunks outside this fragment —
in particular a fourth CSV chunk still containing a separator — fail to parse,
which `Tx.from_str` turns into the amount `0` via `unwrap_or(0.)`. -/
def parseDecimal (cs : List Char) : Option Rat :=
  let signBody : Rat × List Char :=
    match cs with
    | '+' :: rest => (1, rest)
    | '-' :: rest => (-1, rest)
    | _ => (1, cs)
  let sign := signBody.1
  let body := signBody.2
  match splitFirstDot body with
  | none =>
    if !body.isEmpty && body.all Char.isDigit then
      some (sign * (natOfDigits body : Rat))
    else none
  | some (ip, fp) =>
    if (!ip.isEmpty || !fp.isEmpty) && ip.all Char.isDigit && fp.all Char.isDigit then
      some (sign * ((natOfDigits ip : Rat) + (natOfDigits fp : Rat) / (10 : Rat) ^ fp.length))
    else none

/-- Result of `Tx::from_str`: `ok` is `Ok(tx)`, `err` is a recoverable
`anyhow::Error` (`Err(..)` return), and `panicked` is the process abort raised
by `unreachable!("invalid Tx type")` inside `From<&str> for TxType`. -/
inductive ParseResult where
  | ok (tx : Tx)
  | err (msg : String)
  | panicked (msg : String)
deriving DecidableEq

/-- `Tx::from_str` from `src/engine.rs`: split the line into at most four
chunks on `,`/`;`, trim each chunk, convert the first chunk through
`TxType::from` (aborting on an unknown keyword), parse the client as `u16` and
the tx id as `u32` (each failure a recoverable error), and parse the optional
fourth chunk as a float with fallback `0`. -/
def Tx.from_str (line : String) : ParseResult :=
  let d := (splitn 4 line.data).map trimChars
  match d[0]? with
  | none => ParseResult.err "missing transaction type"
  | some tyChunk =>
    match TxType.ofKeyword (String.mk tyChunk) with
    | none => ParseResult.panicked "invalid Tx type"
    | some ty =>
      match d[1]? with
      | none => ParseResult.err "missing client"
      | some cChunk =>
        match parseUnsigned 65536 cChunk with
        | none => ParseResult.err "could not parse client to u16"
        | some client =>
          match d[2]? with
          | none => ParseResult.err "missing transaction"
          | some tChunk =>
            match parseUnsigned 4294967296 tChunk with
            | none => ParseResult.err "could not parse tx to u32"
            | some txId =>
              ParseResult.ok
                { tx_type := ty
                  tx_id := txId
                  client := client
                  amount := d[3]?.map (fun v => (parseDecimal v).getD 0) }

/-- `Account` from `src/engine.rs` (fields in source order). -/
structure Account where
  client : Nat
  available : Rat
  held : Rat
  total : Rat
  locked : Bool
deriving DecidableEq

/-- `Account { client, ..Default::default() }` as built by the
`or_insert_with` closure in `process_deposit_and_withdrawal`. -/
def defaultAccount (c : Nat) : Account :=
  { client := c, available := 0, held := 0, total := 0, locked := false }

/-- Pointwise insertion, modelling `HashMap::insert` (and the write-back of a
mutated `entry`). -/
def mapInsert {β : Type} (m : Nat → Option β) (k : Nat) (v : β) : Nat → Option β :=
  fun k' => if k' = k then some v else m k'

/-- `TxEngine` from `src/engine.rs`: the account table, the transaction
ledger, and the dispute table (spelled `desputes` in the source). -/
structure TxEngine where
  accounts : Nat → Option Account
  txs : Nat → Option Tx
  desputes : Nat → Option Tx

/-- `TxEngine::new`: all three tables empty. -/
def TxEngine.new : TxEngine :=
  { accounts := fun _ => none, txs := fun _ => none, desputes := fun _ => none }

/-- `TxEngine::process_deposit_and_withdrawal`.  The `entry(..).or_insert_with`
call materialises the account (default-initialised if absent) before anything
else; a locked account causes an early return with no further effect.  For an
unlocked account, a deposit with an amount adds it to `available` and `total`
and stores the record in the ledger; a withdrawal with an amount subtracts it
from both only when `available >= amount`, but stores the record in the ledger
regardless of sufficiency.  The final wildcard arm is the source's
`unreachable!()`, modelled as `none` (process abort). -/
def process_deposit_and_withdrawal (s : TxEngine) (tx : Tx) : Option TxEngine :=
  let account := (s.accounts tx.client).getD (defaultAccount tx.client)
  let s1 : TxEngine := { s with accounts := mapInsert s.accounts tx.client account }
  if account.locked then some s1
  else
    match tx.tx_type, tx.amount with
    | TxType.deposit, some amount =>
      some { s1 with
        accounts := mapInsert s1.accounts tx.client
          { account with
            available := account.available + amount
            total := account.total + amount }
        txs := mapInsert s1.txs tx.tx_id tx }
    | TxType.deposit, none => some s1
    | TxType.withdrawal, some amount =>
      some { s1 with
        accounts := mapInsert s1.accounts tx.client
          (if amount ≤ account.available then
            { account with
              available := account.available - amount
              total := account.total - amount }
          else account)
        txs := mapInsert s1.txs tx.tx_id tx }
    | TxType.withdrawal, none => some s1
    | _, _ => none

/-- `TxEngine::process_dispute`: an unknown `tx_id` (or a ledger record with
no amount) is a silent no-op; otherwise the owning account is looked up with
`.unwrap()` — `none` models that unwrap failing (process abort) — and the
amount moves from `available` to `held`, the record being copied into the
dispute table. -/
def process_dispute (s : TxEngine) (tx_id : Nat) : Option TxEngine :=
  match s.txs tx_id with
  | none => some s
  | some tx =>
    match tx.amount with
    | none => some s
    | some amount =>
      match s.accounts tx.client with
      | none => none
      | some account =>
        some { s with
          accounts := mapInsert s.accounts tx.client
            { account with
              available := account.available - amount
              held := account.held + amount }
          desputes := mapInsert s.desputes tx_id tx }

/-- `TxEngine::process_resolve`: same lookup discipline as `process_dispute`;
the amount moves from `held` back to `available`.  Note the source also
inserts the record into the dispute table here (line 179 of `engine.rs`). -/
def process_resolve (s : TxEngine) (tx_id : Nat) : Option TxEngine :=
  match s.txs tx_id with
  | none => some s
  | some tx =>
    match tx.amount with
    | none => some s
    | some amount =>
      match s.accounts tx.client with
      | none => none
      | some account =>
        some { s with
          accounts := mapInsert s.accounts tx.client
            { account with
              available := account.available + amount
              held := account.held - amount }
          desputes := mapInsert s.desputes tx_id tx }

/-- `TxEngine::process_chargeback`: same lookup discipline; the amount leaves
`total` and `held` and the account is locked.  The dispute table is not
touched. -/
def process_chargeback (s : TxEngine) (tx_id : Nat) : Option TxEngine :=
  match s.txs tx_id with
  | none => some s
  | some tx =>
    match tx.amount with
    | none => some s
    | some amount =>
      match s.accounts tx.client with
      | none => none
      | some account =>
        some { s with
          accounts := mapInsert s.accounts tx.client
            { account with
              total := account.total - amount
              held := account.held - amount
              locked := true } }

/-- `TxEngine::process_tx`: dispatch on the record kind.  The wildcard arm
(`TxType::Noop`) is the source's `unreachable!("unidentified transaction
type")`, modelled as `none`. -/
def process_tx (s : TxEngine) (tx : Tx) : Option TxEngine :=
  match tx.tx_type with
  | TxType.deposit | TxType.withdrawal => process_deposit_and_withdrawal s tx
  | TxType.dispute => process_dispute s tx.tx_id
  | TxType.resolve => process_resolve s tx.tx_id
  | TxType.chargeback => process_chargeback s tx.tx_id
  | TxType.noop => none

/-- Sequential processing of a list of records, propagating a process abort. -/
def processTxList (txs : List Tx) (s : TxEngine) : Option TxEngine :=
  match txs with
  | [] => some s
  | tx :: rest =>
    match process_tx s tx with
    | none => none
    | some s' => processTxList rest s'

/-- Outcome of the file-batch driver `reader_loop` in `src/main.rs`. `ok` is
normal completion (followed by the snapshot write), `fail` is the `Err` that
the `?` on `Tx::from_str(..)` propagates out of the loop (the snapshot is
never written), and `panicked` is a process abort. -/
inductive BatchOutcome where
  | ok (s : TxEngine)
  | fail (msg : String)
  | panicked (msg : String)

/-- Is a batch outcome normal completion? -/
def BatchOutcome.isOk : BatchOutcome → Bool
  | BatchOutcome.ok _ => true
  | _ => false

/-- The line loop of `reader_loop`: skip empty lines (`line.is_empty()` is the
test `line = ""`), parse, and on a recoverable parse error abort the whole
batch via `?`.  An unknown keyword or a failed engine unwrap aborts the
process. -/
def runLines : List String → TxEngine → BatchOutcome
  | [], s => BatchOutcome.ok s
  | line :: rest, s =>
    if line = "" then runLines rest s
    else
      match Tx.from_str line with
      | ParseResult.err m => BatchOutcome.fail m
      | ParseResult.panicked m => BatchOutcome.panicked m
      | ParseResult.ok tx =>
        match process_tx s tx with
        | none => BatchOutcome.panicked "unwrap failed"
        | some s' => runLines rest s'

/-- `reader_loop` from `src/main.rs`: drop the header line
(`reader.lines().skip(1)`) and run the batch loop from a fresh engine. -/
def reader_loop (lines : List String) : BatchOutcome :=
  runLines (lines.drop 1) TxEngine.new

/-- Outcome of one connection in `src/csv_stream.rs`: `completed` reaches the
end of the stream (and then writes a snapshot), `died` is an abort inside the
spawned task (tokio confines it to this connection; the engine state it had
already produced survives, since every abort point precedes any mutation in
that call). -/
inductive ConnOutcome where
  | completed (s : TxEngine)
  | died (s : TxEngine) (msg : String)

/-- `handle_connection` from `src/csv_stream.rs`: no header skipping; empty
lines are skipped; a recoverable parse error is reported (`eprintln!`) and the
loop continues with the next line; an unknown keyword or failed unwrap kills
the connection task. -/
def handle_connection : List String → TxEngine → ConnOutcome
  | [], s => ConnOutcome.completed s
  | line :: rest, s =>
    if line = "" then handle_connection rest s
    else
      match Tx.from_str line with
      | ParseResult.err _ => handle_connection rest s
      | ParseResult.panicked m => ConnOutcome.died s m
      | ParseResult.ok tx =>
        match process_tx s tx with
        | none => ConnOutcome.died s "unwrap failed"
        | some s' => handle_connection rest s'

/-- The account the engine holds for client `c` after an (optional) state. -/
def acctAfter (o : Option TxEngine) (c : Nat) : Option Account :=
  o.bind fun s => s.accounts c

/-- The ledger record stored under `id` after an (optional) state. -/
def txAfter (o : Option TxEngine) (id : Nat) : Option Tx :=
  o.bind fun s => s.txs id

/-- The spec's per-account invariant: `total == available + held`. -/
def AccountInv (a : Account) : Prop := a.total = a.available + a.held

/-- The invariant holds for every account the engine knows. -/
def EngineInv (s : TxEngine) : Prop :=
  ∀ c a, s.accounts c = some a → AccountInv a

theorem accountInv_defaultAccount (c : Nat) : AccountInv (defaultAccount c) := by
  simp [AccountInv, defaultAccount]

theorem accountInv_mapInsert {m : Nat → Option Account} {k : Nat} {v : Account}
    (hm : ∀ c a, m c = some a → AccountInv a) (hv : AccountInv v) :
    ∀ c a, mapInsert m k v c = some a → AccountInv a := by
  intro c a h
  unfold mapInsert at h
  by_cases hc : c = k
  · rw [if_pos hc] at h
    injection h with h
    exact h ▸ hv
  · rw [if_neg hc] at h
    exact hm c a h

theorem engineInv_getD {s : TxEngine} (h : EngineInv s) (c : Nat) :
    AccountInv ((s.accounts c).getD (defaultAccount c)) := by
  cases hc : s.accounts c with
  | none => simpa using accountInv_defaultAccount c
  | some a => simpa using h c a hc

theorem engineInv_pdw {s : TxEngine} {tx : Tx} {s' : TxEngine}
    (h : EngineInv s) (hp : process_deposit_and_withdrawal s tx = some s') :
    EngineInv s' := by
  have hacct := engineInv_getD h tx.client
  set acct := (s.accounts tx.client).getD (defaultAccount tx.client) with hacctdef
  simp only [process_deposit_and_withdrawal, ← hacctdef] at hp
  split at hp
  · injection hp with hp
    subst hp
    exact accountInv_mapInsert h hacct
  · split at hp
    · injection hp with hp
      subst hp
      refine accountInv_mapInsert (accountInv_mapInsert h hacct) ?_
      unfold AccountInv at hacct ⊢
      simp only
      rw [hacct]; ring
    · injection hp with hp
      subst hp
      exact accountInv_mapInsert h hacct
    · injection hp with hp
      subst hp
      refine accountInv_mapInsert (accountInv_mapInsert h hacct) ?_
      split
      · unfold AccountInv at hacct ⊢
        simp only
        rw [hacct]; ring
      · exact hacct
    · injection hp with hp
      subst hp
      exact accountInv_mapInsert h hacct
    · exact absurd hp (by simp)

theorem engineInv_dispute {s : TxEngine} {id : Nat} {s' : TxEngine}
    (h : EngineInv s) (hp : process_dispute s id = some s') : EngineInv s' := by
  unfold process_dispute at hp
  split at hp
  · injection hp with hp; subst hp; exact h
  · split at hp
    · injection hp with hp; subst hp; exact h
    · split at hp
      · exact absurd hp (by simp)
      · case _ tx _ amount _ account heq =>
        injection hp with hp
        subst hp
        refine accountInv_mapInsert h ?_
        have := h _ _ heq
        unfold AccountInv at this ⊢
        simp only
        rw [this]; ring

theorem engineInv_resolve {s : TxEngine} {id : Nat} {s' : TxEngine}
    (h : EngineInv s) (hp : process_resolve s id = some s') : EngineInv s' := by
  unfold process_resolve at hp
  split at hp
  · injection hp with hp; subst hp; exact h
  · split at hp
    · injection hp with hp; subst hp; exact h
    · split at hp
      · exact absurd hp (by simp)
      · case _ tx _ amount _ account heq =>
        injection hp with hp
        subst hp
        refine accountInv_mapInsert h ?_
        have := h _ _ heq
        unfold AccountInv at this ⊢
        simp only
        rw [this]; ring

theorem engineInv_chargeback {s : TxEngine} {id : Nat} {s' : TxEngine}
    (h : EngineInv s) (hp : process_chargeback s id = some s') : EngineInv s' := by
  unfold process_chargeback at hp
  split at hp
  · injection hp with hp; subst hp; exact h
  · split at hp
    · injection hp with hp; subst hp; exact h
    · split at hp
      · exact absurd hp (by simp)
      · case _ tx _ amount _ account heq =>
        injection hp with hp
        subst hp
        refine accountInv_mapInsert h ?_
        have := h _ _ heq
        unfold AccountInv at this ⊢
        simp only
        rw [this]; ring

theorem engineInv_process_tx {s : TxEngine} {tx : Tx} {s' : TxEngine}
    (h : EngineInv s) (hp : process_tx s tx = some s') : EngineInv s' := by
  unfold process_tx at hp
  split at hp
  · exact engineInv_pdw h hp
  · exact engineInv_pdw h hp
  · exact engineInv_dispute h hp
  · exact engineInv_resolve h hp
  · exact engineInv_chargeback h hp
  · exact absurd hp (by simp)

theorem engineInv_processTxList {txs : List Tx} :
    ∀ {s s' : TxEngine}, EngineInv s → processTxList txs s = some s' → EngineInv s' := by
  induction txs with
  | nil =>
    intro s s' h hp
    injection hp with hp
    exact hp ▸ h
  | cons tx rest ih =>
    intro s s' h hp
    unfold processTxList at hp
    split at hp
    · exact absurd hp (by simp)
    · case _ s1 heq => exact ih (engineInv_process_tx h heq) hp

theorem engineInv_new : EngineInv TxEngine.new := by
  intro c a h
  simp [TxEngine.new] at h

/-- C1: processing any single transaction record from a state in which
`total == available + held` holds for all accounts preserves that equality for
all accounts, and hence it holds in every engine state reachable from a fresh
engine. -/
theorem c1_total_invariant :
    (∀ (s : TxEngine) (tx : Tx) (s' : TxEngine),
        EngineInv s → process_tx s tx = some s' → EngineInv s') ∧
    (∀ (txs : List Tx) (s' : TxEngine),
        processTxList txs TxEngine.new = some s' → EngineInv s') := by
  constructor
  · intro s tx s' h hp
    exact engineInv_process_tx h hp
  · intro txs s' hp
    exact engineInv_processTxList engineInv_new hp

/-- Witness for C1 at the spec's Scenario A record sequence. -/
theorem c1_total_invariant_witness :
    EngineInv ((processTxList
      [{ tx_type := TxType.deposit, tx_id := 1, client := 1, amount := some 1000 },
       { tx_type := TxType.deposit, tx_id := 2, client := 1, amount := some 500 },
       { tx_type := TxType.dispute, tx_id := 1, client := 1, amount := none }]
      TxEngine.new).getD TxEngine.new) :=
  c1_total_invariant.2
    [{ tx_type := TxType.deposit, tx_id := 1, client := 1, amount := some 1000 },
     { tx_type := TxType.deposit, tx_id := 2, client := 1, amount := some 500 },
     { tx_type := TxType.dispute, tx_id := 1, client := 1, amount := none }]
    ((processTxList
      [{ tx_type := TxType.deposit, tx_id := 1, client := 1, amount := some 1000 },
       { tx_type := TxType.deposit, tx_id := 2, client := 1, amount := some 500 },
       { tx_type := TxType.dispute, tx_id := 1, client := 1, amount := none }]
      TxEngine.new).getD TxEngine.new)
    (by with_unfolding_all exact rfl)

/-- C2: once an account is locked, processing any Deposit or Withdrawal record
for that client has no financial effect: the engine merely re-inserts the very
same account record, and the client's account after processing is exactly the
one before. -/
theorem c2_locked_account_frozen :
    ∀ (s : TxEngine) (tx : Tx) (a : Account),
      (tx.tx_type = TxType.deposit ∨ tx.tx_type = TxType.withdrawal) →
      s.accounts tx.client = some a → a.locked = true →
      process_tx s tx = some { s with accounts := mapInsert s.accounts tx.client a } ∧
      acctAfter (process_tx s tx) tx.client = some a := by
  intro s tx a hty hacc hlock
  have hdispatch : process_tx s tx = process_deposit_and_withdrawal s tx := by
    rcases hty with h | h <;> simp [process_tx, h]
  have hmain : process_deposit_and_withdrawal s tx =
      some { s with accounts := mapInsert s.accounts tx.client a } := by
    simp only [process_deposit_and_withdrawal, hacc, Option.getD_some, hlock, if_true]
  refine ⟨hdispatch.trans hmain, ?_⟩
  rw [acctAfter, hdispatch, hmain]
  simp [mapInsert]

/-- Witness for C2: after deposit, dispute, chargeback, client 1 is locked at
zero balances, and a further deposit of 50 leaves the account unchanged. -/
theorem c2_locked_account_frozen_witness :
    acctAfter (process_tx
      ((processTxList
        [{ tx_type := TxType.deposit, tx_id := 1, client := 1, amount := some 100 },
         { tx_type := TxType.dispute, tx_id := 1, client := 1, amount := none },
         { tx_type := TxType.chargeback, tx_id := 1, client := 1, amount := none }]
        TxEngine.new).getD TxEngine.new)
      { tx_type := TxType.deposit, tx_id := 2, client := 1, amount := some 50 }) 1 =
    some { client := 1, available := 0, held := 0, total := 0, locked := true } :=
  (c2_locked_account_frozen _ _ _ (Or.inl rfl)
    (by with_unfolding_all decide) rfl).2

/-- C3: a Dispute, Resolve, or Chargeback whose `tx_id` is not in the
transaction ledger leaves the entire engine state unchanged (no account
created, no error surfaced); in particular `dispute,3,999` parses to a Dispute
for tx 999 and, on a fresh engine, returns the fresh engine, which has no
accounts at all. -/
theorem c3_unknown_txid_noop :
    (∀ (s : TxEngine) (r : Tx),
      (r.tx_type = TxType.dispute ∨ r.tx_type = TxType.resolve ∨
        r.tx_type = TxType.chargeback) →
      s.txs r.tx_id = none →
      process_tx s r = some s) ∧
    Tx.from_str "dispute,3,999" =
      ParseResult.ok { tx_type := TxType.dispute, tx_id := 999, client := 3, amount := none } ∧
    process_tx TxEngine.new
        { tx_type := TxType.dispute, tx_id := 999, client := 3, amount := none } =
      some TxEngine.new ∧
    (∀ c, TxEngine.new.accounts c = none) := by
  refine ⟨?_, by with_unfolding_all decide, rfl, fun c => rfl⟩
  intro s r hty htx
  rcases hty with h | h | h <;>
    simp [process_tx, h, process_dispute, process_resolve, process_chargeback, htx]

/-- Witness for C3: a Resolve for an id the fresh ledger does not contain is
the identity on the fresh engine. -/
theorem c3_unknown_txid_noop_witness :
    process_tx TxEngine.new
        { tx_type := TxType.resolve, tx_id := 7, client := 2, amount := none } =
      some TxEngine.new :=
  c3_unknown_txid_noop.1 TxEngine.new _ (Or.inr (Or.inl rfl)) rfl

/-- Characterisation of `process_dispute` on a ledger-resident id whose
record has an amount and whose owning client has an account. -/
theorem process_dispute_eq (s : TxEngine) {id : Nat} {tx0 : Tx} {amt : Rat}
    {acct : Account} (htx : s.txs id = some tx0) (hamt : tx0.amount = some amt)
    (hacc : s.accounts tx0.client = some acct) :
    process_dispute s id =
      some { s with
        accounts := mapInsert s.accounts tx0.client
          { acct with available := acct.available - amt, held := acct.held + amt }
        desputes := mapInsert s.desputes id tx0 } := by
  simp only [process_dispute, htx, hamt, hacc]

/-- Characterisation of `process_resolve` on a ledger-resident id whose
record has an amount and whose owning client has an account. -/
theorem process_resolve_eq (s : TxEngine) {id : Nat} {tx0 : Tx} {amt : Rat}
    {acct : Account} (htx : s.txs id = some tx0) (hamt : tx0.amount = some amt)
    (hacc : s.accounts tx0.client = some acct) :
    process_resolve s id =
      some { s with
        accounts := mapInsert s.accounts tx0.client
          { acct with available := acct.available + amt, held := acct.held - amt }
        desputes := mapInsert s.desputes id tx0 } := by
  simp only [process_resolve, htx, hamt, hacc]

/-- C4: for a ledger-resident `tx_id` with an amount, a Dispute followed by a
Resolve restores the owning account exactly (available and held return to
their pre-dispute values; client, total and locked are never touched), and the
total is already unchanged after the Dispute alone. -/
theorem c4_dispute_resolve_roundtrip :
    ∀ (s : TxEngine) (id : Nat) (tx0 : Tx) (amt : Rat) (acct : Account),
      s.txs id = some tx0 → tx0.amount = some amt →
      s.accounts tx0.client = some acct →
      (acctAfter (process_dispute s id) tx0.client).map Account.total = some acct.total ∧
      acctAfter ((process_dispute s id).bind fun s1 => process_resolve s1 id) tx0.client =
        some acct := by
  intro s id tx0 amt acct htx hamt hacc
  have hd := process_dispute_eq s htx hamt hacc
  have hacc1 : ({ s with
        accounts := mapInsert s.accounts tx0.client
          { acct with available := acct.available - amt, held := acct.held + amt }
        desputes := mapInsert s.desputes id tx0 } : TxEngine).accounts tx0.client =
      some { acct with available := acct.available - amt, held := acct.held + amt } := by
    simp [mapInsert]
  have hr := process_resolve_eq
    { s with
      accounts := mapInsert s.accounts tx0.client
        { acct with available := acct.available - amt, held := acct.held + amt }
      desputes := mapInsert s.desputes id tx0 }
    htx hamt hacc1
  constructor
  · rw [acctAfter, hd, Option.some_bind]
    simp [mapInsert]
  · rw [acctAfter, hd, Option.some_bind, hr, Option.some_bind]
    obtain ⟨cl, av, hd', tot, lk⟩ := acct
    have h1 : av - amt + amt = av := by ring
    have h2 : hd' + amt - amt = hd' := by ring
    simp [mapInsert, h1, h2]

/-- Witness for C4: deposit 1000 for client 1, then Dispute and Resolve of
tx 1 restore the account. -/
theorem c4_dispute_resolve_roundtrip_witness :
    acctAfter ((process_dispute
        ((processTxList
          [{ tx_type := TxType.deposit, tx_id := 1, client := 1, amount := some 1000 }]
          TxEngine.new).getD TxEngine.new) 1).bind fun s1 => process_resolve s1 1) 1 =
      some { client := 1, available := 1000, held := 0, total := 1000, locked := false } :=
  (c4_dispute_resolve_roundtrip
    ((processTxList
      [{ tx_type := TxType.deposit, tx_id := 1, client := 1, amount := some 1000 }]
      TxEngine.new).getD TxEngine.new)
    1 { tx_type := TxType.deposit, tx_id := 1, client := 1, amount := some 1000 } 1000
    { client := 1, available := 1000, held := 0, total := 1000, locked := false }
    (by with_unfolding_all decide) rfl (by with_unfolding_all decide)).2

/-- C5: a Withdrawal with an amount against an unlocked account decreases
available and total by the amount exactly when funds suffice, leaves balances
unchanged otherwise, and is stored in the transaction ledger under its `tx_id`
in both cases; Scenario D: `deposit,2,10,100.0` then `withdrawal,2,11,500.0`
from a fresh engine leaves account 2 at available 100, held 0, total 100,
unlocked. -/
theorem c5_withdrawal :
    (∀ (s : TxEngine) (tx : Tx) (amt : Rat) (acct : Account),
      tx.tx_type = TxType.withdrawal → tx.amount = some amt →
      (s.accounts tx.client).getD (defaultAccount tx.client) = acct →
      acct.locked = false →
      txAfter (process_tx s tx) tx.tx_id = some tx ∧
      (amt ≤ acct.available →
        acctAfter (process_tx s tx) tx.client =
          some { acct with available := acct.available - amt,
                           total := acct.total - amt }) ∧
      (¬ amt ≤ acct.available →
        acctAfter (process_tx s tx) tx.client = some acct)) ∧
    Tx.from_str "deposit,2,10,100.0" =
      ParseResult.ok { tx_type := TxType.deposit, tx_id := 10, client := 2, amount := some 100 } ∧
    Tx.from_str "withdrawal,2,11,500.0" =
      ParseResult.ok
        { tx_type := TxType.withdrawal, tx_id := 11, client := 2, amount := some 500 } ∧
    acctAfter (processTxList
        [{ tx_type := TxType.deposit, tx_id := 10, client := 2, amount := some 100 },
         { tx_type := TxType.withdrawal, tx_id := 11, client := 2, amount := some 500 }]
        TxEngine.new) 2 =
      some { client := 2, available := 100, held := 0, total := 100, locked := false } := by
  refine ⟨?_, by with_unfolding_all decide, by with_unfolding_all decide,
    by with_unfolding_all decide⟩
  intro s tx amt acct hty hamt hacct hlock
  have hdispatch : process_tx s tx = process_deposit_and_withdrawal s tx := by
    simp [process_tx, hty]
  have hmain : process_deposit_and_withdrawal s tx =
      some { s with
        accounts := mapInsert (mapInsert s.accounts tx.client acct) tx.client
          (if amt ≤ acct.available then
            { acct with available := acct.available - amt, total := acct.total - amt }
          else acct)
        txs := mapInsert s.txs tx.tx_id tx } := by
    simp only [process_deposit_and_withdrawal, hacct, hlock, Bool.false_eq_true,
      if_false, hty, hamt]
  rw [hdispatch, hmain]
  refine ⟨by simp [txAfter, mapInsert], ?_, ?_⟩
  · intro hle
    simp [acctAfter, mapInsert, if_pos hle]
  · intro hle
    simp [acctAfter, mapInsert, if_neg hle]

/-- Witness for C5 at Scenario D's withdrawal: 500 exceeds the 100 available,
so the balances stay put. -/
theorem c5_withdrawal_witness :
    acctAfter (process_tx
        ((processTxList
          [{ tx_type := TxType.deposit, tx_id := 10, client := 2, amount := some 100 }]
          TxEngine.new).getD TxEngine.new)
        { tx_type := TxType.withdrawal, tx_id := 11, client := 2, amount := some 500 }) 2 =
      some { client := 2, available := 100, held := 0, total := 100, locked := false } :=
  ((c5_withdrawal.1 _ _ 500 _ rfl rfl (by with_unfolding_all decide) rfl).2.2
    (by with_unfolding_all decide))

theorem from_str_empty : Tx.from_str "" = ParseResult.panicked "invalid Tx type" := by
  with_unfolding_all decide

/-- C6 counterexample: in the file-batch path, one malformed line
(`deposit,oops,1,5.0`) makes `reader_loop` return the propagated error — the
following valid deposit is never processed and no snapshot is produced —
whereas without the malformed line the same batch completes.  This refutes
"processing continues with the next line ... in both the file-batch path and
the network path". -/
theorem c6_counterexample :
    reader_loop ["type,client,tx,amount", "deposit,oops,1,5.0", "deposit,7,1,5.0"] =
      BatchOutcome.fail "could not parse client to u16" ∧
    (reader_loop ["type,client,tx,amount", "deposit,7,1,5.0"]).isOk = true := by
  constructor
  · with_unfolding_all exact rfl
  · with_unfolding_all decide

/-- C6 (amended): a line on which the parser fails with a recoverable error is
skipped — processing continues with the next line — in the network path
(`handle_connection`), but in the file-batch path the `?` in `reader_loop`
propagates the same error and aborts the whole batch at that line. -/
theorem c6_parse_error_handling :
    (∀ (line : String) (rest : List String) (s : TxEngine) (m : String),
      Tx.from_str line = ParseResult.err m →
      handle_connection (line :: rest) s = handle_connection rest s) ∧
    (∀ (line : String) (rest : List String) (s : TxEngine) (m : String),
      Tx.from_str line = ParseResult.err m →
      runLines (line :: rest) s = BatchOutcome.fail m) := by
  have hne : ∀ (line m : String),
      Tx.from_str line = ParseResult.err m → ¬ line = "" := by
    intro line m h hl
    rw [hl, from_str_empty] at h
    exact ParseResult.noConfusion h
  constructor
  · intro line rest s m h
    simp only [handle_connection, if_neg (hne line m h), h]
  · intro line rest s m h
    simp only [runLines, if_neg (hne line m h), h]

/-- Witness for the amended C6: the network loop skips the bad client field
and processes the next line; the batch loop fails at it. -/
theorem c6_parse_error_handling_witness :
    handle_connection ["deposit,oops,1,5.0", "deposit,7,1,5.0"] TxEngine.new =
      handle_connection ["deposit,7,1,5.0"] TxEngine.new ∧
    runLines ["deposit,oops,1,5.0", "deposit,7,1,5.0"] TxEngine.new =
      BatchOutcome.fail "could not parse client to u16" :=
  ⟨c6_parse_error_handling.1 "deposit,oops,1,5.0" ["deposit,7,1,5.0"] TxEngine.new
      "could not parse client to u16" (by with_unfolding_all decide),
   c6_parse_error_handling.2 "deposit,oops,1,5.0" ["deposit,7,1,5.0"] TxEngine.new
      "could not parse client to u16" (by with_unfolding_all decide)⟩

/-- C7 (behaviour at the failing input): an unrecognised transaction-type
keyword does not yield a recoverable parse error; `TxType::from` hits
`unreachable!("invalid Tx type")`.  In the file-batch path that abort takes
down the whole run (remaining lines unprocessed); in the network path it kills
the connection task. -/
theorem c7_unknown_keyword_panics :
    Tx.from_str "Deposit,1,1,100.0" = ParseResult.panicked "invalid Tx type" ∧
    reader_loop ["type,client,tx,amount", "Deposit,1,1,100.0", "deposit,1,1,5.0"] =
      BatchOutcome.panicked "invalid Tx type" ∧
    handle_connection ["Deposit,1,1,100.0", "deposit,1,1,5.0"] TxEngine.new =
      ConnOutcome.died TxEngine.new "invalid Tx type" := by
  refine ⟨by with_unfolding_all decide, by with_unfolding_all exact rfl,
    by with_unfolding_all exact rfl⟩

/-- C8 counterexample: a line with an extra trailing field does not parse to
the same record as its four-field truncation: `splitn(4, ..)` leaves
`3.0,junk` as the fourth chunk, its float parse fails, and `unwrap_or(0.)`
turns the amount into 0 instead of 3. -/
theorem c8_counterexample :
    Tx.from_str "deposit,1,2,3.0,junk" ≠ Tx.from_str "deposit,1,2,3.0" ∧
    Tx.from_str "deposit,1,2,3.0,junk" =
      ParseResult.ok { tx_type := TxType.deposit, tx_id := 2, client := 1, amount := some 0 } ∧
    Tx.from_str "deposit,1,2,3.0" =
      ParseResult.ok { tx_type := TxType.deposit, tx_id := 2, client := 1, amount := some 3 } := by
  refine ⟨by with_unfolding_all decide, by with_unfolding_all decide,
    by with_unfolding_all decide⟩

theorem splitFirstSep_append (a : List Char) (s1 : Char) (rest : List Char)
    (ha : ∀ x ∈ a, isSep x = false) (hs : isSep s1 = true) :
    splitFirstSep (a ++ s1 :: rest) = some (a, rest) := by
  induction a with
  | nil => simp [splitFirstSep, hs]
  | cons c cs ih =>
    have hc : isSep c = false := ha c (by simp)
    have hcs : ∀ x ∈ cs, isSep x = false := fun x hx => ha x (by simp [hx])
    simp [splitFirstSep, hc, ih hcs]

theorem splitn_step (n : Nat) (a : List Char) (s1 : Char) (rest : List Char)
    (ha : ∀ x ∈ a, isSep x = false) (hs : isSep s1 = true) :
    splitn (n + 2) (a ++ s1 :: rest) = a :: splitn (n + 1) rest := by
  simp [splitn, splitFirstSep_append a s1 rest ha hs]

/-- C8 (amended): the parser splits on comma or semicolon and trims each
field, but into at most four chunks: everything after the third separator —
further separators included — forms the single fourth chunk.  A line with
extra trailing fields therefore keeps them inside its fourth chunk (whose
failed numeric parse then becomes amount 0) instead of ignoring them.  The
two concrete conjuncts show mixed `,`/`;` separators with whitespace
trimming, and a three-field line parsing with no amount. -/
theorem c8_split_behaviour :
    (∀ (a b c rest : List Char) (s1 s2 s3 : Char),
      (∀ x ∈ a, isSep x = false) → (∀ x ∈ b, isSep x = false) →
      (∀ x ∈ c, isSep x = false) →
      isSep s1 = true → isSep s2 = true → isSep s3 = true →
      splitn 4 (a ++ s1 :: (b ++ s2 :: (c ++ s3 :: rest))) = [a, b, c, rest]) ∧
    Tx.from_str "deposit ; 1 ,2; 3.0" =
      ParseResult.ok { tx_type := TxType.deposit, tx_id := 2, client := 1, amount := some 3 } ∧
    Tx.from_str " deposit,1,2" =
      ParseResult.ok { tx_type := TxType.deposit, tx_id := 2, client := 1, amount := none } := by
  refine ⟨?_, by with_unfolding_all decide, by with_unfolding_all decide⟩
  intro a b c rest s1 s2 s3 ha hb hc h1 h2 h3
  have e4 : (4 : Nat) = 2 + 2 := rfl
  have e3 : (2 + 1 : Nat) = 1 + 2 := rfl
  have e2 : (1 + 1 : Nat) = 0 + 2 := rfl
  rw [e4, splitn_step 2 a s1 _ ha h1, e3, splitn_step 1 b s2 _ hb h2, e2,
    splitn_step 0 c s3 _ hc h3]
  rfl

/-- Witness for the amended C8 at a concrete line with a fifth field. -/
theorem c8_split_behaviour_witness :
    splitn 4 ("deposit".data ++ ',' :: ("1".data ++ ',' :: ("2".data ++ ',' :: "3.0,junk".data))) =
      ["deposit".data, "1".data, "2".data, "3.0,junk".data] :=
  c8_split_behaviour.1 "deposit".data "1".data "2".data "3.0,junk".data ',' ',' ','
    (by decide) (by decide) (by decide) (by decide) (by decide) (by decide)

/-- C9 counterexample: client 1 deposits 100 (tx 1), which is never disputed.
A first Resolve of tx 1 nevertheless moves 100 out of `held` (held becomes
−100: funds "un-frozen" that were never frozen — not a no-op, and not the
reversal of any dispute), and after that first Resolve has inserted tx 1 into
the dispute table, a second Resolve still acts again (held −200): the dispute
table prevents nothing. -/
theorem c9_counterexample :
    (acctAfter (processTxList
      [{ tx_type := TxType.deposit, tx_id := 1, client := 1, amount := some 100 },
       { tx_type := TxType.resolve, tx_id := 1, client := 1, amount := none }]
      TxEngine.new) 1).map Account.held = some (-100) ∧
    (acctAfter (processTxList
      [{ tx_type := TxType.deposit, tx_id := 1, client := 1, amount := some 100 },
       { tx_type := TxType.resolve, tx_id := 1, client := 1, amount := none },
       { tx_type := TxType.resolve, tx_id := 1, client := 1, amount := none }]
      TxEngine.new) 1).map Account.held = some (-200) := by
  constructor
  · with_unfolding_all decide
  · with_unfolding_all decide

/-- C9 (amended): a Resolve for a ledger-resident `tx_id` with an amount
applies unconditionally — available increases and held decreases by the
amount, total untouched, so `total == available + held` is never corrupted —
whether or not the id is currently disputed; and the dispute table has no
influence on the outcome (the accounts and ledger after a Resolve are the
same for every content of the dispute table: it is written, never read, so it
cannot prevent acting twice on the same dispute id). -/
theorem c9_resolve_unconditional :
    ∀ (s : TxEngine) (id : Nat) (tx0 : Tx) (amt : Rat) (acct : Account),
      s.txs id = some tx0 → tx0.amount = some amt →
      s.accounts tx0.client = some acct →
      acctAfter (process_resolve s id) tx0.client =
        some { acct with available := acct.available + amt, held := acct.held - amt } ∧
      (acctAfter (process_resolve s id) tx0.client).map Account.total = some acct.total ∧
      (∀ d : Nat → Option Tx,
        acctAfter (process_resolve { s with desputes := d } id) tx0.client =
          acctAfter (process_resolve s id) tx0.client ∧
        txAfter (process_resolve { s with desputes := d } id) id =
          txAfter (process_resolve s id) id) := by
  intro s id tx0 amt acct htx hamt hacc
  have hr := process_resolve_eq s htx hamt hacc
  refine ⟨?_, ?_, ?_⟩
  · rw [acctAfter, hr, Option.some_bind]
    simp [mapInsert]
  · rw [acctAfter, hr, Option.some_bind]
    simp [mapInsert]
  · intro d
    have hr2 := process_resolve_eq { s with desputes := d } htx hamt hacc
    constructor
    · rw [acctAfter, acctAfter, hr, hr2, Option.some_bind, Option.some_bind]
    · rw [txAfter, txAfter, hr, hr2, Option.some_bind, Option.some_bind]

/-- Witness for the amended C9: resolving undisputed tx 1 moves 100 from held
to available. -/
theorem c9_resolve_unconditional_witness :
    acctAfter (process_resolve
      ((processTxList
        [{ tx_type := TxType.deposit, tx_id := 1, client := 1, amount := some 100 }]
        TxEngine.new).getD TxEngine.new) 1) 1 =
      some { client := 1, available := 200, held := -100, total := 100, locked := false } := by
  have h := (c9_resolve_unconditional
    ((processTxList
      [{ tx_type := TxType.deposit, tx_id := 1, client := 1, amount := some 100 }]
      TxEngine.new).getD TxEngine.new)
    1 { tx_type := TxType.deposit, tx_id := 1, client := 1, amount := some 100 } 100
    { client := 1, available := 100, held := 0, total := 100, locked := false }
    (by with_unfolding_all decide) rfl (by with_unfolding_all decide)).1
  rw [h]
  with_unfolding_all decide

/-- Every transaction stored in the ledger has its owning client present in
the accounts table. -/
def LedgerClients (s : TxEngine) : Prop :=
  ∀ id t, s.txs id = some t → (s.accounts t.client).isSome = true

theorem mapInsert_isSome {β : Type} {m : Nat → Option β} {c : Nat} (k : Nat) (v : β)
    (h : (m c).isSome = true) : (mapInsert m k v c).isSome = true := by
  unfold mapInsert
  by_cases hc : c = k <;> simp [hc, h]

theorem ledgerClients_new : LedgerClients TxEngine.new := by
  intro id t h
  simp [TxEngine.new] at h

theorem ledgerClients_pdw {s : TxEngine} {tx : Tx}
    (h : LedgerClients s)
    (hty : tx.tx_type = TxType.deposit ∨ tx.tx_type = TxType.withdrawal) :
    ∃ s', process_deposit_and_withdrawal s tx = some s' ∧ LedgerClients s' := by
  unfold process_deposit_and_withdrawal
  by_cases hl : ((s.accounts tx.client).getD (defaultAccount tx.client)).locked
  · refine ⟨_, by rw [if_pos hl], ?_⟩
    intro id t hid
    exact mapInsert_isSome _ _ (h id t hid)
  · rw [if_neg hl]
    have hstep : ∀ (v : Account),
        LedgerClients { s with
          accounts := mapInsert (mapInsert s.accounts tx.client
            ((s.accounts tx.client).getD (defaultAccount tx.client))) tx.client v
          txs := mapInsert s.txs tx.tx_id tx } := by
      intro v id t hid
      by_cases hc : id = tx.tx_id
      · have : t = tx := by
          simp only [mapInsert, if_pos hc] at hid
          exact (Option.some.inj hid).symm
        subst this
        simp [mapInsert]
      · have : s.txs id = some t := by
          simpa only [mapInsert, if_neg hc] using hid
        exact mapInsert_isSome _ _ (mapInsert_isSome _ _ (h id t this))
    have hkeep : LedgerClients { s with
        accounts := mapInsert s.accounts tx.client
          ((s.accounts tx.client).getD (defaultAccount tx.client)) } := by
      intro id t hid
      exact mapInsert_isSome _ _ (h id t hid)
    rcases hty with hty | hty <;> rw [hty] <;> cases hamt : tx.amount
    · exact ⟨_, rfl, hkeep⟩
    · exact ⟨_, rfl, hstep _⟩
    · exact ⟨_, rfl, hkeep⟩
    · exact ⟨_, rfl, hstep _⟩

theorem ledgerClients_dispute {s : TxEngine} (id : Nat) (h : LedgerClients s) :
    ∃ s', process_dispute s id = some s' ∧ LedgerClients s' := by
  cases hidtx : s.txs id with
  | none => exact ⟨s, by simp [process_dispute, hidtx], h⟩
  | some tx0 =>
    cases hamt : tx0.amount with
    | none => exact ⟨s, by simp [process_dispute, hidtx, hamt], h⟩
    | some amt =>
      obtain ⟨acct, hacct⟩ := Option.isSome_iff_exists.mp (h id tx0 hidtx)
      refine ⟨_, process_dispute_eq s hidtx hamt hacct, ?_⟩
      intro id2 t2 hid2
      exact mapInsert_isSome _ _ (h id2 t2 hid2)

theorem ledgerClients_resolve {s : TxEngine} (id : Nat) (h : LedgerClients s) :
    ∃ s', process_resolve s id = some s' ∧ LedgerClients s' := by
  cases hidtx : s.txs id with
  | none => exact ⟨s, by simp [process_resolve, hidtx], h⟩
  | some tx0 =>
    cases hamt : tx0.amount with
    | none => exact ⟨s, by simp [process_resolve, hidtx, hamt], h⟩
    | some amt =>
      obtain ⟨acct, hacct⟩ := Option.isSome_iff_exists.mp (h id tx0 hidtx)
      refine ⟨_, process_resolve_eq s hidtx hamt hacct, ?_⟩
      intro id2 t2 hid2
      exact mapInsert_isSome _ _ (h id2 t2 hid2)

theorem ledgerClients_chargeback {s : TxEngine} (id : Nat) (h : LedgerClients s) :
    ∃ s', process_chargeback s id = some s' ∧ LedgerClients s' := by
  cases hidtx : s.txs id with
  | none => exact ⟨s, by simp [process_chargeback, hidtx], h⟩
  | some tx0 =>
    cases hamt : tx0.amount with
    | none => exact ⟨s, by simp [process_chargeback, hidtx, hamt], h⟩
    | some amt =>
      obtain ⟨acct, hacct⟩ := Option.isSome_iff_exists.mp (h id tx0 hidtx)
      have hcb : process_chargeback s id =
          some { s with
            accounts := mapInsert s.accounts tx0.client
              { acct with total := acct.total - amt, held := acct.held - amt,
                          locked := true } } := by
        simp only [process_chargeback, hidtx, hamt, hacct]
      refine ⟨_, hcb, ?_⟩
      intro id2 t2 hid2
      exact mapInsert_isSome _ _ (h id2 t2 hid2)

theorem ledgerClients_process_tx {s : TxEngine} {tx : Tx}
    (h : LedgerClients s) (hty : tx.tx_type ≠ TxType.noop) :
    ∃ s', process_tx s tx = some s' ∧ LedgerClients s' := by
  cases hty2 : tx.tx_type
  · simpa only [process_tx, hty2] using ledgerClients_pdw h (Or.inl hty2)
  · simpa only [process_tx, hty2] using ledgerClients_pdw h (Or.inr hty2)
  · simpa only [process_tx, hty2] using ledgerClients_dispute tx.tx_id h
  · simpa only [process_tx, hty2] using ledgerClients_resolve tx.tx_id h
  · simpa only [process_tx, hty2] using ledgerClients_chargeback tx.tx_id h
  · exact absurd hty2 hty

theorem ledgerClients_processTxList {txs : List Tx} :
    ∀ {s : TxEngine}, LedgerClients s → (∀ tx ∈ txs, tx.tx_type ≠ TxType.noop) →
      ∃ s', processTxList txs s = some s' ∧ LedgerClients s' := by
  induction txs with
  | nil =>
    intro s h _
    exact ⟨s, rfl, h⟩
  | cons tx rest ih =>
    intro s h hty
    obtain ⟨s1, hs1, h1⟩ := ledgerClients_process_tx h (hty tx (by simp))
    obtain ⟨s', hs', h'⟩ := ih h1 (fun t ht => hty t (by simp [ht]))
    exact ⟨s', by simp [processTxList, hs1, hs'], h'⟩

/-- C10: from a fresh engine, processing any sequence of records of the five
real kinds never returns `none` (so the `unwrap`/panic branch inside
Dispute/Resolve/Chargeback is unreachable), and in every state so reached,
every transaction stored in the ledger has its client present in the accounts
table — the account lookup on a ledger-resident `tx_id` always succeeds. -/
theorem c10_ledger_clients_have_accounts :
    ∀ (txs : List Tx), (∀ tx ∈ txs, tx.tx_type ≠ TxType.noop) →
      (processTxList txs TxEngine.new).isSome = true ∧
      ∀ s', processTxList txs TxEngine.new = some s' → LedgerClients s' := by
  intro txs hty
  obtain ⟨s', hs', h'⟩ := ledgerClients_processTxList ledgerClients_new hty
  refine ⟨by simp [hs'], ?_⟩
  intro s2 hs2
  rw [hs'] at hs2
  injection hs2 with hs2
  exact hs2 ▸ h'

/-- Witness for C10 on a deposit–dispute–withdrawal sequence touching two
clients. -/
theorem c10_ledger_clients_have_accounts_witness :
    (processTxList
      [{ tx_type := TxType.deposit, tx_id := 1, client := 1, amount := some 100 },
       { tx_type := TxType.dispute, tx_id := 1, client := 1, amount := none },
       { tx_type := TxType.withdrawal, tx_id := 2, client := 4, amount := some 50 }]
      TxEngine.new).isSome = true :=
  (c10_ledger_clients_have_accounts
    [{ tx_type := TxType.deposit, tx_id := 1, client := 1, amount := some 100 },
     { tx_type := TxType.dispute, tx_id := 1, client := 1, amount := none },
     { tx_type := TxType.withdrawal, tx_id := 2, client := 4, amount := some 50 }]
    (by decide)).1

end Roinstxs
